import Mathlib

/-!
# Verification of the BotSee CLI polling client (`scripts/botsee.py`)

This file is a shallow embedding of the parts of `scripts/botsee.py` that the
specification makes claims about:

* the analysis-completion polling loop of `cmd_analyze` (exponential backoff,
  timeout check at the top of each iteration, skip on non-200 responses);
* the single-shot signup status check `signup_resume`;
* the user-config persistence `save_user_config` / `load_user_config`;
* the client-side count validation of `cmd_create_site` and the absence of
  validation in the `generate-*` commands;
* the HTTP-error sanitisation and the `SKILL_VER` payload injection of
  `api_call`.

Machine time is modelled with rationals (seconds).  For the polling loop the
environment supplies, for each loop iteration, the amount of wall-clock time
that passes outside of `time.sleep` (network-call duration plus interpreter
overhead, written `(src i).1` below) together with the poll response
`(src i).2`.  `time.sleep` advances the clock by exactly its argument.
-/

/-- Configuration constants from the top of `scripts/botsee.py`. -/
def POLL_INTERVAL : ℚ := 3

/-- `SIGNUP_POLL_TIMEOUT = 300` (seconds). -/
def SIGNUP_POLL_TIMEOUT : ℚ := 300

/-- `ANALYSIS_POLL_TIMEOUT = 600` (seconds). -/
def ANALYSIS_POLL_TIMEOUT : ℚ := 600

/-- `TYPES_MIN, TYPES_MAX = 1, 3`. -/
def TYPES_MIN : ℤ := 1

def TYPES_MAX : ℤ := 3

/-- `PERSONAS_MIN, PERSONAS_MAX = 1, 3`. -/
def PERSONAS_MIN : ℤ := 1

def PERSONAS_MAX : ℤ := 3

/-- `QUESTIONS_MIN, QUESTIONS_MAX = 3, 10`. -/
def QUESTIONS_MIN : ℤ := 3

def QUESTIONS_MAX : ℤ := 10

/-- `__version__ = "2.0.0"`. -/
def skillVersion : String := "2.0.0"

/-- One response to a `GET /analysis/{uuid}` poll: the HTTP status code and
the value of `resp.get("analysis", {}).get("status")` (`none` when the
`analysis` object or its `status` field is absent). -/
structure PollResp where
  code : Nat
  status : Option String
deriving DecidableEq, Repr

/-- How the `while True` loop of `cmd_analyze` ended.  These are the only
constructors: the loop exits by `break` on `"completed"` (the full response
that carried the status is returned), by `sys.exit(1)` on `"failed"`, or by
`sys.exit(1)` on the timeout check at the top of an iteration. -/
inductive PollTerm where
  | completedOk : PollResp → PollTerm
  | failedExit : PollTerm
  | timedOut : PollTerm
deriving DecidableEq, Repr

/-- Observable result of a finished polling loop: how it ended, how many
`GET` polls were issued, the value of `elapsed` at the final timeout check
(for `timedOut`) resp. of the clock when the loop ended, and the argument of
every `time.sleep` call, in order (`sleeps.get (k-1)` is the wait before poll
`k`). -/
structure PollOutcome where
  term : PollTerm
  polls : Nat
  elapsed : ℚ
  sleeps : List ℚ
deriving DecidableEq, Repr

/-- `wait_time = min(wait_time * 2, max_wait)` with `max_wait = 30`. -/
def nextWait (w : ℚ) : ℚ := min (w * 2) 30

/-- Amount slept at an iteration whose timeout check read `elapsed = e`:
the code sleeps `wait_time` when `elapsed > 0` and not at all otherwise. -/
def sleepAmt (e w : ℚ) : ℚ := if 0 < e then w else 0

/-- `wait_time` after an iteration whose timeout check read `elapsed = e`:
it is doubled (capped) exactly when the sleep happened. -/
def stepWait (e w : ℚ) : ℚ := if 0 < e then nextWait w else w

/-- Shallow embedding of the polling loop of `cmd_analyze`
(`scripts/botsee.py`, the `while True` after "Poll for completion with
exponential backoff"):

```
while True:
    elapsed = time.time() - start_time
    if elapsed >= ANALYSIS_POLL_TIMEOUT: sys.exit(1)        -- timedOut
    if elapsed > 0:
        time.sleep(wait_time)
        wait_time = min(wait_time * 2, max_wait)
    resp, status, _ = api_call("GET", ...)
    if status != HTTP_OK: continue
    s = resp.get("analysis", {}).get("status")
    if s == "completed": break                              -- completedOk
    elif s == "failed": sys.exit(1)                         -- failedExit
```

`src i` gives, for iteration `i` (0-indexed), the wall-clock time that
passes outside `time.sleep` before that iteration's timeout check, and the
response of that iteration's poll.  `i` counts polls already issued,
`elapsed` is the clock reading at the previous point, `w` is `wait_time`.
`fuel` bounds the number of iterations; `none` means fuel ran out before the
loop ended (the real loop would simply keep iterating). -/
def pollLoop (T : ℚ) (src : Nat → ℚ × PollResp) :
    Nat → Nat → ℚ → ℚ → Option PollOutcome
  | 0, _, _, _ => none
  | fuel + 1, i, elapsed, w =>
    if T ≤ elapsed + (src i).1 then
      some ⟨.timedOut, i, elapsed + (src i).1, []⟩
    else if (src i).2.code ≠ 200 then
      (pollLoop T src fuel (i + 1)
          (elapsed + (src i).1 + sleepAmt (elapsed + (src i).1) w)
          (stepWait (elapsed + (src i).1) w)).map
        fun o => { o with sleeps := sleepAmt (elapsed + (src i).1) w :: o.sleeps }
    else if (src i).2.status = some "completed" then
      some ⟨.completedOk (src i).2, i + 1,
        elapsed + (src i).1 + sleepAmt (elapsed + (src i).1) w,
        [sleepAmt (elapsed + (src i).1) w]⟩
    else if (src i).2.status = some "failed" then
      some ⟨.failedExit, i + 1,
        elapsed + (src i).1 + sleepAmt (elapsed + (src i).1) w,
        [sleepAmt (elapsed + (src i).1) w]⟩
    else
      (pollLoop T src fuel (i + 1)
          (elapsed + (src i).1 + sleepAmt (elapsed + (src i).1) w)
          (stepWait (elapsed + (src i).1) w)).map
        fun o => { o with sleeps := sleepAmt (elapsed + (src i).1) w :: o.sleeps }

/-- A poll response that the loop retries on: either a non-200 HTTP status
(the `continue` branch) or a 200 whose status field is `"pending"`. -/
def pendingOrNon200 (r : PollResp) : Prop :=
  r.code ≠ 200 ∨ r.status = some "pending"

instance : DecidablePred pendingOrNon200 := fun r => by
  unfold pendingOrNon200; infer_instance

/-- A poll response that never ends the loop: non-200, or a status field
that is neither `"completed"` nor `"failed"`. -/
def nonTerminalResp (r : PollResp) : Prop :=
  r.code ≠ 200 ∨ (r.status ≠ some "completed" ∧ r.status ≠ some "failed")

instance : DecidablePred nonTerminalResp := fun r => by
  unfold nonTerminalResp; infer_instance

theorem pending_imp_nonTerminal {r : PollResp} (h : pendingOrNon200 r) :
    nonTerminalResp r := by
  rcases h with h | h
  · exact Or.inl h
  · exact Or.inr (by rw [h]; exact ⟨by decide, by decide⟩)

/-- A non-terminal response makes the loop retry: both the non-200 branch
(`continue`) and the 200-with-unrecognised-status branch fall through to the
next iteration, after sleeping. -/
theorem pollLoop_continue (T : ℚ) (src : Nat → ℚ × PollResp)
    (fuel i : Nat) (elapsed w : ℚ)
    (h1 : ¬ T ≤ elapsed + (src i).1) (h : nonTerminalResp (src i).2) :
    pollLoop T src (fuel + 1) i elapsed w =
      (pollLoop T src fuel (i + 1)
          (elapsed + (src i).1 + sleepAmt (elapsed + (src i).1) w)
          (stepWait (elapsed + (src i).1) w)).map
        fun o => { o with sleeps := sleepAmt (elapsed + (src i).1) w :: o.sleeps } := by
  rcases h with h2 | ⟨hc, hf⟩
  · simp only [pollLoop]
    rw [if_neg h1, if_pos h2]
  · simp only [pollLoop]
    by_cases h2 : (src i).2.code ≠ 200
    · rw [if_neg h1, if_pos h2]
    · rw [if_neg h1, if_neg h2, if_neg hc, if_neg hf]

/-- Soundness of the loop's exits: a `timedOut` outcome really happened at a
timeout check that read `elapsed ≥ T`, and a `completedOk` outcome carries a
response that had HTTP 200 and status `"completed"`. -/
theorem pollLoop_sound (T : ℚ) (src : Nat → ℚ × PollResp) :
    ∀ fuel i elapsed w o, pollLoop T src fuel i elapsed w = some o →
      (o.term = .timedOut → T ≤ o.elapsed) ∧
      (∀ r, o.term = .completedOk r → r.code = 200 ∧ r.status = some "completed") := by
  intro fuel
  induction fuel with
  | zero => intro i elapsed w o h; simp [pollLoop] at h
  | succ fuel ih =>
    intro i elapsed w o h
    simp only [pollLoop] at h
    split_ifs at h with h1 h2 h3 h4
    · obtain rfl : (⟨.timedOut, i, elapsed + (src i).1, []⟩ : PollOutcome) = o :=
        Option.some.inj h
      exact ⟨fun _ => h1, fun r hr => by cases hr⟩
    · rcases Option.map_eq_some'.mp h with ⟨o', ho', rfl⟩
      exact ih (i + 1) _ _ o' ho'
    · obtain rfl : (⟨.completedOk (src i).2, i + 1,
          elapsed + (src i).1 + sleepAmt (elapsed + (src i).1) w,
          [sleepAmt (elapsed + (src i).1) w]⟩ : PollOutcome) = o :=
        Option.some.inj h
      refine ⟨(fun hterm => by cases hterm), fun r hr => ?_⟩
      obtain rfl : (src i).2 = r := by cases hr; rfl
      exact ⟨by omega, h3⟩
    · obtain rfl : (⟨.failedExit, i + 1,
          elapsed + (src i).1 + sleepAmt (elapsed + (src i).1) w,
          [sleepAmt (elapsed + (src i).1) w]⟩ : PollOutcome) = o :=
        Option.some.inj h
      exact ⟨(fun hterm => by cases hterm), fun r hr => by cases hr⟩
    · rcases Option.map_eq_some'.mp h with ⟨o', ho', rfl⟩
      exact ih (i + 1) _ _ o' ho'

/-- `sleepAmt` is between `0` and `w` (for `0 ≤ w`), and `stepWait` keeps
`wait_time` within `[0, 30]`. -/
theorem sleepAmt_bounds {e w : ℚ} (hw0 : 0 ≤ w) :
    0 ≤ sleepAmt e w ∧ sleepAmt e w ≤ w := by
  unfold sleepAmt
  split_ifs <;> simp [hw0]

theorem stepWait_bounds {e w : ℚ} (hw0 : 0 ≤ w) (hw30 : w ≤ 30) :
    0 ≤ stepWait e w ∧ stepWait e w ≤ 30 := by
  unfold stepWait nextWait
  split_ifs
  · constructor
    · exact le_min (by linarith) (by norm_num)
    · exact min_le_right _ _
  · exact ⟨hw0, hw30⟩

/-- Reaching the first terminal response.  If the `m` poll responses before
position `i + m` are all retried (non-200 or `"pending"`), the response at
`i + m` is an HTTP 200 carrying status `"completed"` or `"failed"`, and the
elapsed time cannot reach the timeout first (each wait is at most 30 s), then
the loop returns right at poll `i + m + 1`: `completedOk` with that very
response, or `failedExit`. -/
theorem pollLoop_reach_terminal (T : ℚ) (src : Nat → ℚ × PollResp)
    (hδ : ∀ j, 0 ≤ (src j).1) :
    ∀ m fuel i elapsed w, m < fuel → 0 ≤ w → w ≤ 30 →
      (∀ j, j < m → pendingOrNon200 (src (i + j)).2) →
      (src (i + m)).2.code = 200 →
      ((src (i + m)).2.status = some "completed" ∨
        (src (i + m)).2.status = some "failed") →
      elapsed + (∑ j in Finset.range (m + 1), (src (i + j)).1) + 30 * (m : ℚ) < T →
      ∃ o, pollLoop T src fuel i elapsed w = some o ∧
        o.polls = i + m + 1 ∧
        o.term = if (src (i + m)).2.status = some "completed"
          then PollTerm.completedOk (src (i + m)).2 else PollTerm.failedExit := by
  intro m
  induction m with
  | zero =>
    intro fuel i elapsed w hfuel hw0 hw30 _hpre hcode hterm hT
    obtain ⟨f, rfl⟩ : ∃ f, fuel = f + 1 := ⟨fuel - 1, by omega⟩
    simp only [Nat.zero_add, Finset.sum_range_one, Nat.add_zero, Nat.cast_zero,
      mul_zero, add_zero] at hT hcode hterm ⊢
    have h1 : ¬ T ≤ elapsed + (src i).1 := by linarith
    have h2 : ¬ (src i).2.code ≠ 200 := by omega
    rcases hterm with hc | hf
    · refine ⟨⟨.completedOk (src i).2, i + 1,
        elapsed + (src i).1 + sleepAmt (elapsed + (src i).1) w,
        [sleepAmt (elapsed + (src i).1) w]⟩, ?_, rfl, by rw [if_pos hc]⟩
      simp only [pollLoop, if_neg h1, if_neg h2, if_pos hc]
    · have hc : ¬ (src i).2.status = some "completed" := by
        rw [hf]; decide
      refine ⟨⟨.failedExit, i + 1,
        elapsed + (src i).1 + sleepAmt (elapsed + (src i).1) w,
        [sleepAmt (elapsed + (src i).1) w]⟩, ?_, rfl, by rw [if_neg hc]⟩
      simp only [pollLoop, if_neg h1, if_neg h2, if_neg hc, if_pos hf]
  | succ m ih =>
    intro fuel i elapsed w hfuel hw0 hw30 hpre hcode hterm hT
    obtain ⟨f, rfl⟩ : ∃ f, fuel = f + 1 := ⟨fuel - 1, by omega⟩
    have hsum : (∑ j in Finset.range (m + 1 + 1), (src (i + j)).1) =
        (∑ j in Finset.range (m + 1), (src (i + 1 + j)).1) + (src i).1 := by
      rw [Finset.sum_range_succ' (fun j => (src (i + j)).1) (m + 1), Nat.add_zero]
      refine congrArg (· + (src i).1) (Finset.sum_congr rfl fun j _ => ?_)
      rw [Nat.add_comm j 1, ← Nat.add_assoc]
    have hsumpos : 0 ≤ ∑ j in Finset.range (m + 1), (src (i + 1 + j)).1 :=
      Finset.sum_nonneg fun j _ => hδ _
    have h1 : ¬ T ≤ elapsed + (src i).1 := by
      rw [hsum] at hT
      push_cast at hT
      nlinarith [hsumpos]
    have hhead : pendingOrNon200 (src i).2 := by
      have := hpre 0 (by omega)
      rwa [Nat.add_zero] at this
    have hs := sleepAmt_bounds (e := elapsed + (src i).1) hw0
    have hw' := stepWait_bounds (e := elapsed + (src i).1) hw0 hw30
    have hshift : i + 1 + m = i + (m + 1) := by omega
    obtain ⟨o', ho', hpolls', hterm'⟩ :=
      ih f (i + 1) (elapsed + (src i).1 + sleepAmt (elapsed + (src i).1) w)
        (stepWait (elapsed + (src i).1) w) (by omega) hw'.1 hw'.2
        (fun j hj => by
          have := hpre (j + 1) (by omega)
          rwa [show i + (j + 1) = i + 1 + j by omega] at this)
        (by rwa [hshift]) (by rwa [hshift])
        (by
          rw [hsum] at hT
          push_cast at hT ⊢
          nlinarith [hs.1, hs.2, hδ i])
    refine ⟨{ o' with sleeps := sleepAmt (elapsed + (src i).1) w :: o'.sleeps },
      ?_, by simp only [hpolls']; omega, ?_⟩
    · rw [pollLoop_continue T src f i elapsed w h1 (pending_imp_nonTerminal hhead), ho']
      rfl
    · rw [← hshift]
      exact hterm'

/-- Closed form of the backoff schedule: starting from `wait_time = 1`,
after `k` updates `wait_time = min (2 ^ k) 30`. -/
theorem nextWait_iterate (k : ℕ) : nextWait^[k] (1 : ℚ) = min (2 ^ k) 30 := by
  induction k with
  | zero => norm_num
  | succ k ih =>
    rw [Function.iterate_succ_apply', ih, nextWait]
    rcases le_total ((2 : ℚ) ^ k) 30 with h | h
    · rw [min_eq_left h, pow_succ]
    · have h2 : (30 : ℚ) ≤ 2 ^ (k + 1) := by
        rw [pow_succ]; nlinarith
      rw [min_eq_right h, min_eq_right h2, min_eq_right (by norm_num : (30 : ℚ) ≤ 30 * 2)]

/-- In any run whose very first timeout check already reads a positive
`elapsed` (true whenever any wall-clock time at all passes between
`start_time = time.time()` and the first `elapsed` computation), every
iteration sleeps, so the sleep trace follows the `nextWait` schedule from
the starting `wait_time`. -/
theorem pollLoop_sleeps_schedule (T : ℚ) (src : Nat → ℚ × PollResp)
    (hδ : ∀ j, 0 ≤ (src j).1) :
    ∀ fuel i elapsed w o, 0 ≤ w → 0 < elapsed + (src i).1 →
      pollLoop T src fuel i elapsed w = some o →
      o.sleeps = (List.range o.sleeps.length).map (fun t => nextWait^[t] w) := by
  intro fuel
  induction fuel with
  | zero => intro i elapsed w o _ _ h; simp [pollLoop] at h
  | succ fuel ih =>
    intro i elapsed w o hw0 hpos h
    have hsleep : sleepAmt (elapsed + (src i).1) w = w := if_pos hpos
    have hstep : stepWait (elapsed + (src i).1) w = nextWait w := if_pos hpos
    have hnext0 : 0 ≤ nextWait w := le_min (by linarith) (by norm_num)
    have hpos' : 0 < elapsed + (src i).1 + sleepAmt (elapsed + (src i).1) w
        + (src (i + 1)).1 := by
      rw [hsleep]
      have := hδ (i + 1)
      linarith
    simp only [pollLoop] at h
    split_ifs at h with h1 h2 h3 h4
    · obtain rfl : (⟨.timedOut, i, elapsed + (src i).1, []⟩ : PollOutcome) = o :=
        Option.some.inj h
      simp
    · rcases Option.map_eq_some'.mp h with ⟨o', ho', rfl⟩
      rw [hstep] at ho'
      have hrec := ih (i + 1)
        (elapsed + (src i).1 + sleepAmt (elapsed + (src i).1) w)
        (nextWait w) o' hnext0 hpos' ho'
      simp only [hsleep, List.length_cons]
      rw [List.range_succ_eq_map, List.map_cons, List.map_map]
      refine congrArg₂ _ (Function.iterate_zero_apply nextWait w).symm ?_
      rw [hrec]
      simp only [List.length_map, List.length_range]
      exact List.map_congr_left fun t _ => by
        simp [Function.comp_def, Function.iterate_succ_apply]
    · obtain rfl : (⟨.completedOk (src i).2, i + 1,
          elapsed + (src i).1 + sleepAmt (elapsed + (src i).1) w,
          [sleepAmt (elapsed + (src i).1) w]⟩ : PollOutcome) = o :=
        Option.some.inj h
      simp [hsleep]
    · obtain rfl : (⟨.failedExit, i + 1,
          elapsed + (src i).1 + sleepAmt (elapsed + (src i).1) w,
          [sleepAmt (elapsed + (src i).1) w]⟩ : PollOutcome) = o :=
        Option.some.inj h
      simp [hsleep]
    · rcases Option.map_eq_some'.mp h with ⟨o', ho', rfl⟩
      rw [hstep] at ho'
      have hrec := ih (i + 1)
        (elapsed + (src i).1 + sleepAmt (elapsed + (src i).1) w)
        (nextWait w) o' hnext0 hpos' ho'
      simp only [hsleep, List.length_cons]
      rw [List.range_succ_eq_map, List.map_cons, List.map_map]
      refine congrArg₂ _ (Function.iterate_zero_apply nextWait w).symm ?_
      rw [hrec]
      simp only [List.length_map, List.length_range]
      exact List.map_congr_left fun t _ => by
        simp [Function.comp_def, Function.iterate_succ_apply]

/-- If every response is non-terminal and every iteration advances the clock
by a positive amount bounded by `D`, the loop always ends at the timeout
check, with a final `elapsed` in `[T, T + 30 + D)`: at most one (capped)
wait plus one poll duration past the timeout. -/
theorem pollLoop_timesOut (T D : ℚ) (src : Nat → ℚ × PollResp)
    (hnt : ∀ j, nonTerminalResp (src j).2)
    (hpos : ∀ j, 0 < (src j).1) (hD : ∀ j, (src j).1 ≤ D) :
    ∀ (fuel i : Nat) (elapsed w : ℚ), 1 ≤ w → w ≤ 30 → 0 ≤ elapsed → elapsed < T + 30 →
      1 ≤ fuel → T + 1 - elapsed ≤ (fuel : ℚ) →
      ∃ o, pollLoop T src fuel i elapsed w = some o ∧ o.term = .timedOut ∧
        T ≤ o.elapsed ∧ o.elapsed < T + 30 + D := by
  intro fuel
  induction fuel with
  | zero => intro i elapsed w _ _ _ _ hfuel _; omega
  | succ fuel ih =>
    intro i elapsed w hw1 hw30 he0 heT hfuel hbudget
    by_cases h1 : T ≤ elapsed + (src i).1
    · refine ⟨⟨.timedOut, i, elapsed + (src i).1, []⟩, ?_, rfl, h1, ?_⟩
      · simp only [pollLoop]
        rw [if_pos h1]
      · have := hD i
        simp only
        linarith
    · have hposi := hpos i
      have he : 0 < elapsed + (src i).1 := by linarith
      have hsleep : sleepAmt (elapsed + (src i).1) w = w := if_pos he
      have hstep : stepWait (elapsed + (src i).1) w = nextWait w := if_pos he
      have hnw1 : 1 ≤ nextWait w := le_min (by linarith) (by norm_num)
      have hnw30 : nextWait w ≤ 30 := min_le_right _ _
      have hfuel1 : 1 ≤ fuel := by
        by_contra hf
        have : fuel = 0 := by omega
        subst this
        push_cast at hbudget
        have : T ≤ elapsed := by linarith
        linarith
      obtain ⟨o', ho', hterm', hlo', hhi'⟩ :=
        ih (i + 1) (elapsed + (src i).1 + sleepAmt (elapsed + (src i).1) w)
          (nextWait w) hnw1 hnw30 (by rw [hsleep]; linarith)
          (by rw [hsleep]; linarith)
          hfuel1
          (by
            rw [hsleep]
            push_cast at hbudget ⊢
            linarith)
      refine ⟨{ o' with sleeps := sleepAmt (elapsed + (src i).1) w :: o'.sleeps },
        ?_, hterm', hlo', hhi'⟩
      rw [pollLoop_continue T src fuel i elapsed w h1 (hnt i), hstep, ho']
      rfl

/-! ## User config persistence (`load_user_config` / `save_user_config`) -/

/-- The four keys `save_user_config` writes to `~/.botsee/config.json`.
Missing JSON values (`null` / absent keys) are `none`. -/
structure UserConfig where
  api_key : Option String
  site_uuid : Option String
  contact_email : Option String
  company_name : Option String
deriving DecidableEq, Repr

/-- Python's `x or y` on an optional string: `None` and `""` are falsy. -/
def pyOr (x y : Option String) : Option String :=
  match x with
  | none => y
  | some s => if s = "" then y else some s

/-- `load_user_config`: returns the parsed contents of
`~/.botsee/config.json`, or `None` when the file does not exist.  The file
contents are modelled as the record last written (`none` = missing or
unparseable, in which case `save_user_config` falls back to `{}`). -/
def load_user_config (file : Option UserConfig) : Option UserConfig := file

/-- `save_user_config(api_key, site_uuid, contact_email=None,
company_name=None)`: reads the existing config (empty on parse error or
missing file), then writes the full four-key record where `api_key` and
`site_uuid` are always the passed values and the two contact fields fall
back to the existing values when the passed value is falsy
(`contact_email or existing_config.get("contact_email")`). -/
def save_user_config (api_key site_uuid contact_email company_name : Option String)
    (file : Option UserConfig) : UserConfig :=
  { api_key := api_key
    site_uuid := site_uuid
    contact_email := pyOr contact_email (file.bind UserConfig.contact_email)
    company_name := pyOr company_name (file.bind UserConfig.company_name) }

/-! ## Signup status check (`signup_resume`, `cmd_signup`) -/

/-- One response to the signup status poll: HTTP code plus the fields
`signup_resume` reads from the body. -/
structure SignupResp where
  code : Nat
  status : Option String
  api_key : Option String
  contact_email : Option String
  company_name : Option String
deriving DecidableEq, Repr

/-- How a `signup_resume` invocation ended: `completedOk` prints success and
returns (exit 0); `expiredErr` removes the pending file and exits 1;
`stillPendingErr` prints the setup URL and exits 1. -/
inductive SignupOutcome where
  | completedOk : SignupOutcome
  | expiredErr : SignupOutcome
  | stillPendingErr : SignupOutcome
deriving DecidableEq, Repr

/-- Exit code of the process for each `signup_resume` outcome. -/
def signupExitCode : SignupOutcome → Nat
  | .completedOk => 0
  | .expiredErr => 1
  | .stillPendingErr => 1

/-- The file-system state `signup_resume` touches: whether
`~/.botsee/pending_signup.json` exists, and the user config file. -/
structure SignupFs where
  pendingSignup : Bool
  userConfigFile : Option UserConfig
deriving DecidableEq, Repr

/-- Shallow embedding of `signup_resume` (`scripts/botsee.py`): a single
`api_call("GET", poll_url)`; on HTTP 200 with status `"completed"` and a
truthy `api_key` it saves the user config and removes the pending-signup
file (exit 0); on 200/`"expired"` it removes the pending file and exits 1;
every other response (including any non-200) falls through to the
"still pending" message and exits 1. -/
def signup_resume (resp : SignupResp) (fs : SignupFs) : SignupOutcome × SignupFs :=
  if resp.code = 200 then
    if resp.status = some "completed" then
      match resp.api_key with
      | some k =>
        if k ≠ "" then
          (.completedOk,
            { pendingSignup := false
              userConfigFile := some (save_user_config (some k) none
                resp.contact_email resp.company_name fs.userConfigFile) })
        else (.stillPendingErr, fs)
      | none => (.stillPendingErr, fs)
    else if resp.status = some "expired" then
      (.expiredErr, { fs with pendingSignup := false })
    else (.stillPendingErr, fs)
  else (.stillPendingErr, fs)

/-- Repeated `/botsee signup` invocations while the pending-signup file
exists: `cmd_signup` sees the pending file and calls `signup_resume`, once
per invocation, one response per invocation.  Returns the outcome of every
invocation and the final file-system state. -/
def signup_invocations (resps : List SignupResp) (fs : SignupFs) :
    List SignupOutcome × SignupFs :=
  match resps with
  | [] => ([], fs)
  | r :: rs =>
    let step := signup_resume r fs
    let rest := signup_invocations rs step.2
    (step.1 :: rest.1, rest.2)

/-! ## Count validation (`cmd_create_site`, `cmd_generate_*`) -/

/-- A network request issued through `api_call`, as far as the validation
claims are concerned. -/
inductive NetCall where
  | createSite : String → NetCall
  | generateTypes : Int → NetCall
  | generatePersonas : Int → NetCall
  | generateQuestions : Int → NetCall
  | usage : NetCall
deriving DecidableEq, Repr

/-- `normalize_domain`: prepend `https://` unless the string already starts
with `http://` or `https://`. -/
def normalize_domain (domain : String) : String :=
  if domain.startsWith "http://" ∨ domain.startsWith "https://" then domain
  else "https://" ++ domain

/-- Observable behaviour of a command: the process exit code and the
network calls it issued, in order. -/
structure CmdResult where
  exitCode : Nat
  calls : List NetCall
deriving DecidableEq, Repr

/-- What the modelled remote server replies to a call: an HTTP status and a
list of resource UUIDs contained in the response body (customer types resp.
personas), used to drive the inner generation loops. -/
structure SrvResp where
  status : Nat
  uuids : List String
deriving DecidableEq, Repr

/-- Shallow embedding of `cmd_create_site`: require the user config (exit 1,
no call, when absent), validate the three count ranges (exit 1, no call, on
violation), then create the site and run the three generation stages.  A
failed persona/question generation is skipped (`continue`), not fatal. -/
def cmd_create_site (domain : String) (types personas questions : Int)
    (cfg : Option UserConfig) (server : NetCall → SrvResp) : CmdResult :=
  match cfg with
  | none => ⟨1, []⟩
  | some _ =>
    if ¬ (TYPES_MIN ≤ types ∧ types ≤ TYPES_MAX) then ⟨1, []⟩
    else if ¬ (PERSONAS_MIN ≤ personas ∧ personas ≤ PERSONAS_MAX) then ⟨1, []⟩
    else if ¬ (QUESTIONS_MIN ≤ questions ∧ questions ≤ QUESTIONS_MAX) then ⟨1, []⟩
    else
      let siteCall := NetCall.createSite (normalize_domain domain)
      let siteResp := server siteCall
      if ¬ (siteResp.status = 200 ∨ siteResp.status = 201) then ⟨1, [siteCall]⟩
      else
        let genT := NetCall.generateTypes types
        let genTResp := server genT
        if ¬ (genTResp.status = 200 ∨ genTResp.status = 201) then ⟨1, [siteCall, genT]⟩
        else
          let pCalls := genTResp.uuids.map fun _ => NetCall.generatePersonas personas
          let personaUuids := (genTResp.uuids.map fun _ =>
            let r := server (NetCall.generatePersonas personas)
            if r.status = 200 ∨ r.status = 201 then r.uuids else []).flatten
          let qCalls := personaUuids.map fun _ => NetCall.generateQuestions questions
          ⟨0, [siteCall, genT] ++ pCalls ++ qCalls ++ [NetCall.usage]⟩

/-- Shallow embedding of `cmd_generate_types`: require the user config, then
`POST .../customer-types/generate` with `{"count": args.count}` — there is
no client-side range check on `count`. -/
def cmd_generate_types (count : Int) (cfg : Option UserConfig)
    (server : NetCall → SrvResp) : CmdResult :=
  match cfg with
  | none => ⟨1, []⟩
  | some _ =>
    let r := server (NetCall.generateTypes count)
    if r.status = 200 ∨ r.status = 201 then ⟨0, [NetCall.generateTypes count]⟩
    else ⟨1, [NetCall.generateTypes count]⟩

/-- Shallow embedding of `cmd_generate_personas`: no client-side range check
on `count`. -/
def cmd_generate_personas (count : Int) (cfg : Option UserConfig)
    (server : NetCall → SrvResp) : CmdResult :=
  match cfg with
  | none => ⟨1, []⟩
  | some _ =>
    let r := server (NetCall.generatePersonas count)
    if r.status = 200 ∨ r.status = 201 then ⟨0, [NetCall.generatePersonas count]⟩
    else ⟨1, [NetCall.generatePersonas count]⟩

/-- Shallow embedding of `cmd_generate_questions`: no client-side range
check on `count`. -/
def cmd_generate_questions (count : Int) (cfg : Option UserConfig)
    (server : NetCall → SrvResp) : CmdResult :=
  match cfg with
  | none => ⟨1, []⟩
  | some _ =>
    let r := server (NetCall.generateQuestions count)
    if r.status = 200 ∨ r.status = 201 then ⟨0, [NetCall.generateQuestions count]⟩
    else ⟨1, [NetCall.generateQuestions count]⟩

/-! ## `api_call`: HTTP-error sanitisation and `SKILL_VER` injection -/

/-- A parsed JSON value, as produced by `json.loads` on an error body. -/
inductive JsonVal where
  | str : String → JsonVal
  | num : Int → JsonVal
  | bool : Bool → JsonVal
  | null : JsonVal
  | arr : List JsonVal → JsonVal
  | obj : List (String × JsonVal) → JsonVal

mutual

/-- Python's `str()` rendering of a parsed JSON value (dicts print with
single-quoted keys/values, `True`/`False`/`None` for the scalars), used by
the `"api_key" in str(error_data).lower()` check. -/
def pyStr : JsonVal → String
  | .str s => "'" ++ s ++ "'"
  | .num n => toString n
  | .bool b => if b then "True" else "False"
  | .null => "None"
  | .arr xs => "[" ++ pyStrList xs ++ "]"
  | .obj kvs => "\x7b" ++ pyStrObj kvs ++ "\x7d"

/-- Comma-separated rendering of a JSON array's elements. -/
def pyStrList : List JsonVal → String
  | [] => ""
  | [x] => pyStr x
  | x :: y :: xs => pyStr x ++ ", " ++ pyStrList (y :: xs)

/-- Comma-separated rendering of a JSON object's entries. -/
def pyStrObj : List (String × JsonVal) → String
  | [] => ""
  | [(k, v)] => "'" ++ k ++ "': " ++ pyStr v
  | (k, v) :: e :: kvs => "'" ++ k ++ "': " ++ pyStr v ++ ", " ++ pyStrObj (e :: kvs)

end

/-- Python's `str.lower()` (ASCII view; the strings involved here are
ASCII). -/
def pyLower (s : String) : String := ⟨s.data.map Char.toLower⟩

/-- `needle` occurs as a contiguous prefix of `hay` (character lists). -/
def listPre : List Char → List Char → Bool
  | [], _ => true
  | _ :: _, [] => false
  | a :: as, b :: bs => a = b && listPre as bs

/-- Python's `needle in hay` substring test on character lists. -/
def listSub (n : List Char) : List Char → Bool
  | [] => listPre n []
  | b :: bs => listPre n (b :: bs) || listSub n bs

/-- `"api_key" in str(error_data).lower()` from the `HTTPError` handler. -/
def mentionsApiKey (j : JsonVal) : Bool :=
  listSub "api_key".toList (pyLower (pyStr j)).toList

/-- The fixed dict `{"error": "Authentication failed"}`. -/
def authFailedBody : JsonVal := .obj [("error", .str "Authentication failed")]

/-- The fixed dict `{"error": "Request failed"}`. -/
def requestFailedBody : JsonVal := .obj [("error", .str "Request failed")]

/-- Shallow embedding of the `urllib.error.HTTPError` branch of `api_call`:
`parsed` is `json.loads(e.read())` when the body parses (`none` on
`JSONDecodeError`/`ValueError`).  Returns the `(response_dict, http_status)`
pair handed back to the caller (the third tuple component is `None` on this
path). -/
def api_call_httpError (parsed : Option JsonVal) (code : Nat) : JsonVal × Nat :=
  match parsed with
  | some j => if mentionsApiKey j then (authFailedBody, code) else (j, code)
  | none => (requestFailedBody, code)

/-- Python dict assignment `d[k] = v`: replace the value at an existing key,
else append the new entry. -/
def dictSet (d : List (String × JsonVal)) (k : String) (v : JsonVal) :
    List (String × JsonVal) :=
  if d.any fun kv => kv.1 = k then
    d.map fun kv => if kv.1 = k then (k, v) else kv
  else d ++ [(k, v)]

/-- Python dict lookup `d.get(k)` (first matching key). -/
def dictLookup (d : List (String × JsonVal)) (k : String) : Option JsonVal :=
  (d.find? fun kv => kv.1 = k).map Prod.snd

/-- Shallow embedding of the request-body preparation in `api_call`:

```
if data is not None:
    data["SKILL_VER"] = __version__        -- mutates the caller's dict
body = json.dumps(data).encode() if data else None
```

Returns (final contents of the caller's `data` dict, body sent).  The body
is returned as the dict it serialises (up to `json.dumps`); note the
truthiness test `if data` runs after the insertion, so a non-`None` dict is
never empty at that point. -/
def api_call_prepare (data : Option (List (String × JsonVal))) :
    Option (List (String × JsonVal)) × Option (List (String × JsonVal)) :=
  match data with
  | none => (none, none)
  | some d =>
    let d2 := dictSet d "SKILL_VER" (JsonVal.str skillVersion)
    (some d2, if d2.isEmpty then none else some d2)

/-! ## Claim theorems -/

/-- **C1.**  The analysis polling loop ends only on the three named
conditions.  Part 1 (soundness): whenever the loop ends, a `timedOut` end
really is a timeout check that read `elapsed ≥ T`, and a `completedOk` end
returns the HTTP-200 response whose status field was `"completed"` (the body
is available to the caller).  Part 2: for every poll sequence consisting of
`m` responses that are each non-200 or `"pending"` followed by one
`completed` response (reached before the timeout can fire — each wait is at
most 30 s), the loop returns that `completed` response and stops after
exactly `m + 1` polls, issuing no further polls. -/
theorem analyze_poll_terminal_conditions (T : ℚ) (src : Nat → ℚ × PollResp)
    (hδ : ∀ j, 0 ≤ (src j).1) :
    (∀ (fuel i : Nat) (elapsed w : ℚ) (o : PollOutcome),
        pollLoop T src fuel i elapsed w = some o →
          (o.term = .timedOut → T ≤ o.elapsed) ∧
          (∀ r, o.term = .completedOk r → r.code = 200 ∧ r.status = some "completed")) ∧
    (∀ m fuel : Nat, m < fuel →
        (∀ j, j < m → pendingOrNon200 (src j).2) →
        (src m).2.code = 200 → (src m).2.status = some "completed" →
        (∑ j in Finset.range (m + 1), (src j).1) + 30 * (m : ℚ) < T →
        ∃ o, pollLoop T src fuel 0 0 1 = some o ∧
          o.term = .completedOk (src m).2 ∧ o.polls = m + 1) := by
  constructor
  · exact fun fuel i elapsed w o h => pollLoop_sound T src fuel i elapsed w o h
  · intro m fuel hm hpre hcode hc hT
    obtain ⟨o, ho, hpolls, hterm⟩ := pollLoop_reach_terminal T src hδ m fuel 0 0 1 hm
      (by norm_num) (by norm_num)
      (fun j hj => by simpa using hpre j hj)
      (by simpa using hcode)
      (Or.inl (by simpa using hc))
      (by simpa using hT)
    refine ⟨o, ho, ?_, by omega⟩
    rw [hterm, if_pos (by simpa using hc)]
    simp

/-- Concrete poll sequence for the C1 witness: one HTTP 500, one pending,
then completed. -/
def csrcC1 : Nat → ℚ × PollResp := fun j =>
  if j = 0 then (1, ⟨500, none⟩)
  else if j = 1 then (0, ⟨200, some "pending"⟩)
  else (0, ⟨200, some "completed"⟩)

theorem analyze_poll_terminal_conditions_witness :
    ∃ o, pollLoop 600 csrcC1 10 0 0 1 = some o ∧
      o.term = .completedOk ⟨200, some "completed"⟩ ∧ o.polls = 3 := by
  have h := (analyze_poll_terminal_conditions 600 csrcC1
      (fun j => by unfold csrcC1; split_ifs <;> norm_num)).2 2 10 (by norm_num)
    (fun j hj => by
      interval_cases j <;> simp [csrcC1, pendingOrNon200])
    (by norm_num [csrcC1]) (by norm_num [csrcC1])
    (by simp [Finset.sum_range_succ, csrcC1]; norm_num)
  simpa [csrcC1] using h

/-- **C2.**  In every run of the analysis loop in which the first timeout
check already reads a positive `elapsed` (which holds whenever any
wall-clock time at all passes between `start_time = time.time()` and the
first `elapsed` computation — the case in any real execution, where the
check `elapsed > 0` then makes every iteration sleep), the wait before poll
`k` (1-indexed) is `min (2^(k-1)) 30` seconds: an initial 1-second wait,
doubled each iteration, capped at 30 seconds. -/
theorem analyze_backoff_wait_schedule (T : ℚ) (src : Nat → ℚ × PollResp)
    (hδ : ∀ j, 0 ≤ (src j).1) (h0 : 0 < (src 0).1)
    (fuel k : Nat) (o : PollOutcome)
    (hrun : pollLoop T src fuel 0 0 1 = some o)
    (hk : 1 ≤ k) (hklen : k - 1 < o.sleeps.length) :
    o.sleeps[k - 1]? = some (min (2 ^ (k - 1)) 30) := by
  have hs := pollLoop_sleeps_schedule T src hδ fuel 0 0 1 o (by norm_num)
    (by simpa using h0) hrun
  rw [hs, List.getElem?_map, List.getElem?_range hklen]
  simp [nextWait_iterate]

/-- Constant all-pending poll source with 1-second poll durations, for the
C2 witness. -/
def csrcC2 : Nat → ℚ × PollResp := fun _ => (1, ⟨200, some "pending"⟩)

/-- The outcome of `pollLoop 100 csrcC2 20 0 0 1`, computed below. -/
def oC2 : PollOutcome := ⟨.timedOut, 8, 130, [1, 2, 4, 8, 16, 30, 30, 30]⟩

set_option maxRecDepth 8000 in
theorem analyze_backoff_wait_schedule_witness :
    pollLoop 100 csrcC2 20 0 0 1 = some oC2 ∧
    oC2.sleeps[6 - 1]? = some (min (2 ^ (6 - 1)) 30) := by
  have hrun : pollLoop 100 csrcC2 20 0 0 1 = some oC2 := by
    norm_num [pollLoop, csrcC2, oC2, sleepAmt, stepWait, nextWait,
      eq_false (show ("pending" : String) ≠ "completed" by decide),
      eq_false (show ("pending" : String) ≠ "failed" by decide)]
  exact ⟨hrun, analyze_backoff_wait_schedule 100 csrcC2
    (fun j => by norm_num [csrcC2]) (by norm_num [csrcC2]) 20 6 oC2 hrun
    (by norm_num) (by simp [oC2])⟩

/-- **C3.**  Part 1: in the analysis loop, a `"failed"` status (HTTP 200)
observed after any number of retried responses terminates polling on that
very attempt — `m + 1` polls, no more — with the `failedExit` end, which is
distinct from the `timedOut` end, regardless of how much timeout budget
remains.  Part 2: on the signup path, `signup_resume` (which issues exactly
one status check per invocation) reacts to a 200/`"expired"` response by
removing the pending-signup file and exiting 1 — an outcome distinct from
any timeout report. -/
theorem failed_status_terminates_polling (T : ℚ) (src : Nat → ℚ × PollResp)
    (hδ : ∀ j, 0 ≤ (src j).1) :
    (∀ m fuel : Nat, m < fuel →
        (∀ j, j < m → pendingOrNon200 (src j).2) →
        (src m).2.code = 200 → (src m).2.status = some "failed" →
        (∑ j in Finset.range (m + 1), (src j).1) + 30 * (m : ℚ) < T →
        ∃ o, pollLoop T src fuel 0 0 1 = some o ∧
          o.term = .failedExit ∧ o.term ≠ .timedOut ∧ o.polls = m + 1) ∧
    (∀ (resp : SignupResp) (fs : SignupFs), resp.code = 200 →
        resp.status = some "expired" →
        signup_resume resp fs = (.expiredErr, { fs with pendingSignup := false }) ∧
        signupExitCode (signup_resume resp fs).1 = 1) := by
  constructor
  · intro m fuel hm hpre hcode hf hT
    obtain ⟨o, ho, hpolls, hterm⟩ := pollLoop_reach_terminal T src hδ m fuel 0 0 1 hm
      (by norm_num) (by norm_num)
      (fun j hj => by simpa using hpre j hj)
      (by simpa using hcode)
      (Or.inr (by simpa using hf))
      (by simpa using hT)
    have hne : ¬ (src (0 + m)).2.status = some "completed" := by
      simpa using fun h => by simp [hf] at h
    rw [if_neg hne] at hterm
    exact ⟨o, ho, hterm, by rw [hterm]; simp, by omega⟩
  · intro resp fs h200 hexp
    have hne : ¬ resp.status = some "completed" := by simp [hexp]
    constructor
    · simp only [signup_resume, if_pos h200, if_neg hne, if_pos hexp]
    · simp only [signup_resume, if_pos h200, if_neg hne, if_pos hexp]
      rfl

/-- Concrete poll sequence for the C3 witness: one HTTP 500, then a
`"failed"` status. -/
def csrcC3 : Nat → ℚ × PollResp := fun j =>
  if j = 0 then (1, ⟨500, none⟩) else (0, ⟨200, some "failed"⟩)

theorem failed_status_terminates_polling_witness :
    (∃ o, pollLoop 600 csrcC3 10 0 0 1 = some o ∧
      o.term = .failedExit ∧ o.term ≠ .timedOut ∧ o.polls = 2) ∧
    signup_resume ⟨200, some "expired", none, none, none⟩ ⟨true, none⟩ =
      (.expiredErr, ⟨false, none⟩) := by
  have h := failed_status_terminates_polling 600 csrcC3
    (fun j => by unfold csrcC3; split_ifs <;> norm_num)
  refine ⟨h.1 1 10 (by norm_num)
    (fun j hj => by interval_cases j <;> simp [csrcC3, pendingOrNon200])
    (by norm_num [csrcC3]) (by norm_num [csrcC3])
    (by simp [Finset.sum_range_succ, csrcC3]; norm_num), ?_⟩
  exact (h.2 ⟨200, some "expired", none, none, none⟩ ⟨true, none⟩ rfl rfl).1

/-- **C4.**  If the status field never reaches `"completed"` or `"failed"`
(every response is retried) and every iteration advances the wall clock by
a positive amount of at most `D` seconds outside of the sleeps, the loop
ends with exactly one timeout report, at a timeout check that read
`elapsed ≥ T`, and `elapsed` overshoots `T` by less than one (capped)
interval plus one poll duration: `T ≤ elapsed < T + 30 + D`.  The timeout
check sits at the top of each iteration, before the sleep and the poll. -/
theorem analyze_poll_timeout_report (T D : ℚ) (src : Nat → ℚ × PollResp)
    (hnt : ∀ j, nonTerminalResp (src j).2)
    (hpos : ∀ j, 0 < (src j).1) (hD : ∀ j, (src j).1 ≤ D)
    (hT : 0 < T) (fuel : Nat) (hfuel : T + 1 ≤ (fuel : ℚ)) :
    ∃ o, pollLoop T src fuel 0 0 1 = some o ∧ o.term = .timedOut ∧
      T ≤ o.elapsed ∧ o.elapsed < T + 30 + D := by
  have hfuel1 : 1 ≤ fuel := by
    by_contra h
    have h0 : fuel = 0 := by omega
    subst h0
    norm_num at hfuel
    linarith
  exact pollLoop_timesOut T D src hnt hpos hD fuel 0 0 1 (le_refl 1) (by norm_num)
    (le_refl 0) (by linarith) hfuel1 (by simpa using hfuel)

/-- Constant HTTP-500 poll source for the C4 witness. -/
def csrcC4 : Nat → ℚ × PollResp := fun _ => (1, ⟨500, none⟩)

theorem analyze_poll_timeout_report_witness :
    ∃ o, pollLoop 5 csrcC4 6 0 0 1 = some o ∧ o.term = .timedOut ∧
      5 ≤ o.elapsed ∧ o.elapsed < 5 + 30 + 1 :=
  analyze_poll_timeout_report 5 1 csrcC4
    (fun j => by norm_num [csrcC4, nonTerminalResp])
    (fun j => by norm_num [csrcC4]) (fun j => by norm_num [csrcC4])
    (by norm_num) 6 (by norm_num)

/-- All-pending poll source for the C5 scenario; the first check reads one
second of elapsed time, subsequent poll durations are negligible. -/
def srcAllPending : Nat → ℚ × PollResp := fun i =>
  (if i = 0 then 1 else 0, ⟨200, some "pending"⟩)

/-- The outcome of the C5 scenario run, computed below: 24 polls, timeout
reported at `elapsed = 602`. -/
def oTimeout600 : PollOutcome :=
  ⟨.timedOut, 24, 602, [1, 2, 4, 8, 16] ++ List.replicate 19 30⟩

set_option maxRecDepth 8000 in
/-- **C5 counterexample.**  With `ANALYSIS_POLL_TIMEOUT = 600` and every
response `{"status": "pending"}`, the loop (which uses exponential backoff,
not a 5-second interval — the `POLL_INTERVAL` constant is 3, not 5, and is
not used by this loop) times out after only 24 polls, nowhere near the
claimed ≈ 120. -/
theorem analyze_timeout_polls_cex :
    pollLoop ANALYSIS_POLL_TIMEOUT srcAllPending 30 0 0 1 = some oTimeout600 ∧
    oTimeout600.polls = 24 ∧ oTimeout600.polls < 100 ∧ POLL_INTERVAL ≠ 5 := by
  refine ⟨?_, rfl, by norm_num [oTimeout600], by norm_num [POLL_INTERVAL]⟩
  norm_num [ANALYSIS_POLL_TIMEOUT, pollLoop, srcAllPending, oTimeout600, sleepAmt,
    stepWait, nextWait, List.replicate,
    eq_false (show ("pending" : String) ≠ "completed" by decide),
    eq_false (show ("pending" : String) ≠ "failed" by decide)]

set_option maxRecDepth 8000 in
/-- **C5 amended.**  Same scenario against the code as written: the client
exits 1 with the timeout message after ≈ 600 s of elapsed time (602 s in the
modelled run), having issued 24 polls under the exponential backoff
schedule; the fixed-interval constant `POLL_INTERVAL` equals 3 seconds and
plays no role in this loop. -/
theorem analyze_timeout_backoff_scenario :
    pollLoop ANALYSIS_POLL_TIMEOUT srcAllPending 30 0 0 1 = some oTimeout600 ∧
    oTimeout600.term = .timedOut ∧ oTimeout600.polls = 24 ∧
    ANALYSIS_POLL_TIMEOUT ≤ oTimeout600.elapsed ∧
    oTimeout600.elapsed ≤ ANALYSIS_POLL_TIMEOUT + 2 ∧
    POLL_INTERVAL = 3 := by
  refine ⟨?_, rfl, rfl, by norm_num [oTimeout600, ANALYSIS_POLL_TIMEOUT],
    by norm_num [oTimeout600, ANALYSIS_POLL_TIMEOUT], rfl⟩
  norm_num [ANALYSIS_POLL_TIMEOUT, pollLoop, srcAllPending, oTimeout600, sleepAmt,
    stepWait, nextWait, List.replicate,
    eq_false (show ("pending" : String) ≠ "completed" by decide),
    eq_false (show ("pending" : String) ≠ "failed" by decide)]

/-- The C6 scenario's HTTP 500 response. -/
def sresp500 : SignupResp := ⟨500, none, none, none, none⟩

/-- The C6 scenario's `{"status": "pending"}` response. -/
def srespPending : SignupResp := ⟨200, some "pending", none, none, none⟩

/-- The C6 scenario's completed response carrying `sk_test_123`. -/
def srespCompleted : SignupResp := ⟨200, some "completed", some "sk_test_123", none, none⟩

/-- Initial state for the C6 scenario: pending-signup file present, no user
config yet. -/
def fs0 : SignupFs := ⟨true, none⟩

/-- **C6 counterexample.**  `cmd_signup` does not poll: `signup_resume`
checks the status exactly once per invocation.  Confronted with the
scenario's first response (HTTP 500), the signup command prints the
still-pending message and exits 1, persisting nothing — it does not march
on to the later `completed` response within the same run, contradicting the
claim that the command "polls through these responses … and exits 0". -/
theorem signup_single_check_cex :
    signup_resume sresp500 fs0 = (.stillPendingErr, fs0) ∧
    signupExitCode (signup_resume sresp500 fs0).1 = 1 ∧
    (signup_resume sresp500 fs0).2.userConfigFile = none := by
  refine ⟨rfl, rfl, rfl⟩

/-- **C6 amended.**  One status check per invocation: running
`/botsee signup` five times against the scenario's responses, the first four
invocations exit 1 (HTTP 500 and `"pending"` are both "still pending"), and
the fifth invocation persists `api_key = "sk_test_123"` to the user config,
removes the pending-signup file, and exits 0. -/
theorem signup_five_invocations_scenario :
    signup_invocations [sresp500, sresp500, sresp500, srespPending, srespCompleted] fs0 =
      ([.stillPendingErr, .stillPendingErr, .stillPendingErr, .stillPendingErr,
        .completedOk],
        ⟨false, some ⟨some "sk_test_123", none, none, none⟩⟩) ∧
    ((signup_invocations [sresp500, sresp500, sresp500, srespPending, srespCompleted]
        fs0).1.map signupExitCode) = [1, 1, 1, 1, 0] ∧
    ((signup_invocations [sresp500, sresp500, sresp500, srespPending, srespCompleted]
        fs0).2.userConfigFile.map UserConfig.api_key) = some (some "sk_test_123") := by
  refine ⟨rfl, rfl, rfl⟩

/-- **C7.**  The user-config file is fully rewritten on every save; loading
after a save yields exactly the four-field record the save built, for every
prior file content.  The fields not explicitly overwritten — the optional
contact fields, whose parameters default to `None` — retain their values
from the prior version (`api_key` and `site_uuid` are mandatory parameters
of every save call and always take the passed values). -/
theorem user_config_roundtrip (file : Option UserConfig)
    (ak su ce cn : Option String) :
    load_user_config (some (save_user_config ak su ce cn file)) =
      some { api_key := ak, site_uuid := su,
             contact_email := pyOr ce (file.bind UserConfig.contact_email),
             company_name := pyOr cn (file.bind UserConfig.company_name) } ∧
    (∀ prior, file = some prior → ce = none →
      (save_user_config ak su ce cn file).contact_email = prior.contact_email) ∧
    (∀ prior, file = some prior → cn = none →
      (save_user_config ak su ce cn file).company_name = prior.company_name) := by
  refine ⟨rfl, ?_, ?_⟩
  · rintro prior rfl rfl
    simp [save_user_config, pyOr]
  · rintro prior rfl rfl
    simp [save_user_config, pyOr]

theorem user_config_roundtrip_witness :
    load_user_config (some (save_user_config (some "k2") none none none
        (some ⟨some "k1", some "site-1", some "e@x.io", some "Acme"⟩))) =
      some ⟨some "k2", none, some "e@x.io", some "Acme"⟩ ∧
    (save_user_config (some "k2") none none none
        (some ⟨some "k1", some "site-1", some "e@x.io", some "Acme"⟩)).contact_email =
      some "e@x.io" := by
  have h := user_config_roundtrip
    (some ⟨some "k1", some "site-1", some "e@x.io", some "Acme"⟩)
    (some "k2") none none none
  exact ⟨by rw [h.1]; rfl, h.2.1 _ rfl rfl⟩

/-- A valid saved user config for the C8 scenarios. -/
def cfg0 : UserConfig := ⟨some "key", some "site-1", none, none⟩

/-- A server that answers every request with HTTP 200 and two UUIDs. -/
def srvOk : NetCall → SrvResp := fun _ => ⟨200, ["u1", "u2"]⟩

/-- **C8 counterexample.**  `/botsee generate-types --count 99` with a valid
config issues the generation request carrying the out-of-range count and
exits 0: `cmd_generate_types` performs no client-side range check, so the
claim "every command that takes a generation count … exits non-zero before
issuing any network call" fails on it. -/
theorem generate_types_no_validation_cex :
    cmd_generate_types 99 (some cfg0) srvOk = ⟨0, [NetCall.generateTypes 99]⟩ ∧
    (cmd_generate_types 99 (some cfg0) srvOk).calls ≠ [] ∧
    ¬ (TYPES_MIN ≤ (99 : Int) ∧ (99 : Int) ≤ TYPES_MAX) := by
  refine ⟨rfl, by decide, by norm_num [TYPES_MIN, TYPES_MAX]⟩

/-- **C8 amended.**  Only `cmd_create_site` validates the three count
ranges client-side: with any of types/personas/questions out of its
documented range it exits 1 having issued no network call (the checks run
right after the local config load, before any request).  The dedicated
`generate-types` / `generate-personas` / `generate-questions` commands
instead send whatever count they were given straight to the API. -/
theorem count_validation_create_site_only (domain : String)
    (t p q count : Int) (cfg : UserConfig) (server : NetCall → SrvResp)
    (hbad : ¬ (TYPES_MIN ≤ t ∧ t ≤ TYPES_MAX) ∨
            ¬ (PERSONAS_MIN ≤ p ∧ p ≤ PERSONAS_MAX) ∨
            ¬ (QUESTIONS_MIN ≤ q ∧ q ≤ QUESTIONS_MAX)) :
    ((cmd_create_site domain t p q (some cfg) server).exitCode = 1 ∧
      (cmd_create_site domain t p q (some cfg) server).calls = []) ∧
    (cmd_generate_types count (some cfg) server).calls =
      [NetCall.generateTypes count] ∧
    (cmd_generate_personas count (some cfg) server).calls =
      [NetCall.generatePersonas count] ∧
    (cmd_generate_questions count (some cfg) server).calls =
      [NetCall.generateQuestions count] := by
  refine ⟨?_, ?_, ?_, ?_⟩
  · simp only [cmd_create_site]
    by_cases h1 : ¬ (TYPES_MIN ≤ t ∧ t ≤ TYPES_MAX)
    · rw [if_pos h1]
      exact ⟨rfl, rfl⟩
    · rw [if_neg h1]
      by_cases h2 : ¬ (PERSONAS_MIN ≤ p ∧ p ≤ PERSONAS_MAX)
      · rw [if_pos h2]
        exact ⟨rfl, rfl⟩
      · rw [if_neg h2]
        have h3 : ¬ (QUESTIONS_MIN ≤ q ∧ q ≤ QUESTIONS_MAX) := by tauto
        rw [if_pos h3]
        exact ⟨rfl, rfl⟩
  · simp only [cmd_generate_types]
    split_ifs <;> rfl
  · simp only [cmd_generate_personas]
    split_ifs <;> rfl
  · simp only [cmd_generate_questions]
    split_ifs <;> rfl

theorem count_validation_create_site_only_witness :
    ((cmd_create_site "example.com" 99 2 5 (some cfg0) srvOk).exitCode = 1 ∧
      (cmd_create_site "example.com" 99 2 5 (some cfg0) srvOk).calls = []) ∧
    (cmd_generate_types 99 (some cfg0) srvOk).calls = [NetCall.generateTypes 99] ∧
    (cmd_generate_personas 99 (some cfg0) srvOk).calls =
      [NetCall.generatePersonas 99] ∧
    (cmd_generate_questions 99 (some cfg0) srvOk).calls =
      [NetCall.generateQuestions 99] :=
  count_validation_create_site_only "example.com" 99 2 5 99 cfg0 srvOk
    (Or.inl (by norm_num [TYPES_MIN, TYPES_MAX]))

theorem listPre_trans (p : List Char) :
    ∀ k l, listPre p k = true → listPre k l = true → listPre p l = true := by
  induction p with
  | nil => intro k l _ _; rfl
  | cons a as ih =>
    intro k l h1 h2
    cases k with
    | nil => simp [listPre] at h1
    | cons b bs =>
      cases l with
      | nil => simp [listPre] at h2
      | cons c cs =>
        simp only [listPre, Bool.and_eq_true, decide_eq_true_eq] at h1 h2 ⊢
        obtain ⟨hab, h1t⟩ := h1
        obtain ⟨hbc, h2t⟩ := h2
        exact ⟨hab.trans hbc, ih bs cs h1t h2t⟩

/-- An initial segment of a substring is itself a substring. -/
theorem listSub_of_pre (p k : List Char) (hpk : listPre p k = true) :
    ∀ h, listSub k h = true → listSub p h = true := by
  intro h
  induction h with
  | nil =>
    intro hs
    simp only [listSub] at hs ⊢
    exact listPre_trans p k [] hpk hs
  | cons b bs ih =>
    intro hs
    simp only [listSub, Bool.or_eq_true] at hs ⊢
    rcases hs with hs | hs
    · exact Or.inl (listPre_trans p k (b :: bs) hpk hs)
    · exact Or.inr (ih hs)

theorem pyStr_authFailedBody :
    pyStr authFailedBody = "\x7b'error': 'Authentication failed'\x7d" := by
  simp only [authFailedBody, pyStr, pyStrObj]
  decide

theorem pyStr_requestFailedBody :
    pyStr requestFailedBody = "\x7b'error': 'Request failed'\x7d" := by
  simp only [requestFailedBody, pyStr, pyStrObj]
  decide

/-- **C9.**  The `HTTPError` branch of `api_call` parses the body as JSON
when possible and redacts API-key material.  Part 1: when the parsed body
mentions `api_key` (the code's check `"api_key" in str(error_data).lower()`),
the returned dict is the fixed `{"error": "Authentication failed"}`.
Part 2: when the body does not parse as JSON, the returned dict is the fixed
`{"error": "Request failed"}`.  Part 3: neither fixed dict's rendered text
contains any string starting with the key prefix `sk_` — in particular not
the bearer API key — so the echoed error text leaks no key material in
either case. -/
theorem api_httpError_sanitisation :
    (∀ (j : JsonVal) (code : Nat), mentionsApiKey j = true →
        api_call_httpError (some j) code = (authFailedBody, code)) ∧
    (∀ code : Nat, api_call_httpError none code = (requestFailedBody, code)) ∧
    (∀ k : String, listPre "sk_".toList k.toList = true →
        listSub k.toList (pyStr authFailedBody).toList = false ∧
        listSub k.toList (pyStr requestFailedBody).toList = false) := by
  refine ⟨fun j code hj => by simp [api_call_httpError, hj], fun code => rfl, ?_⟩
  intro k hk
  constructor
  · cases hcase : listSub k.toList (pyStr authFailedBody).toList
    · rfl
    · have hsub := listSub_of_pre _ _ hk _ hcase
      rw [pyStr_authFailedBody] at hsub
      exact absurd hsub (by decide)
  · cases hcase : listSub k.toList (pyStr requestFailedBody).toList
    · rfl
    · have hsub := listSub_of_pre _ _ hk _ hcase
      rw [pyStr_requestFailedBody] at hsub
      exact absurd hsub (by decide)

/-- A parsed error body that mentions the API key (case-insensitively). -/
def errBodyLeak : JsonVal := .obj [("error", .str "Invalid API_Key provided")]

theorem pyStr_errBodyLeak :
    pyStr errBodyLeak = "\x7b'error': 'Invalid API_Key provided'\x7d" := by
  simp only [errBodyLeak, pyStr, pyStrObj]
  decide

theorem api_httpError_sanitisation_witness :
    api_call_httpError (some errBodyLeak) 401 = (authFailedBody, 401) ∧
    api_call_httpError none 500 = (requestFailedBody, 500) ∧
    (listSub "sk_test_123".toList (pyStr authFailedBody).toList = false ∧
      listSub "sk_test_123".toList (pyStr requestFailedBody).toList = false) := by
  have hm : mentionsApiKey errBodyLeak = true := by
    rw [mentionsApiKey, pyStr_errBodyLeak]
    decide
  exact ⟨api_httpError_sanitisation.1 errBodyLeak 401 hm,
    api_httpError_sanitisation.2.1 500,
    api_httpError_sanitisation.2.2 "sk_test_123" (by decide)⟩

/-- Setting a key never leaves the dict empty. -/
theorem dictSet_isEmpty_false (d : List (String × JsonVal)) (k : String)
    (v : JsonVal) : (dictSet d k v).isEmpty = false := by
  unfold dictSet
  split_ifs with h
  · cases d with
    | nil => simp at h
    | cons a as => simp
  · cases d <;> simp

/-- After `d[k] = v`, looking up `k` yields `v` (present-key branch). -/
theorem dictLookup_map_set (k : String) (v : JsonVal) :
    ∀ d : List (String × JsonVal), (d.any fun kv => kv.1 = k) = true →
      dictLookup (d.map fun kv => if kv.1 = k then (k, v) else kv) k = some v := by
  intro d
  induction d with
  | nil => intro h; simp at h
  | cons a as ih =>
    intro h
    by_cases hk : a.1 = k
    · rw [List.map_cons, if_pos hk]
      unfold dictLookup
      rw [List.find?_cons_of_pos _ (by simp)]
      rfl
    · rw [List.map_cons, if_neg hk]
      unfold dictLookup
      rw [List.find?_cons_of_neg _ (by simp [hk])]
      have h2 : (as.any fun kv => kv.1 = k) = true := by
        simp only [List.any_cons, Bool.or_eq_true, decide_eq_true_eq] at h
        rcases h with h | h
        · exact absurd h hk
        · exact h
      exact ih h2

/-- After `d[k] = v`, looking up `k` yields `v`. -/
theorem dictLookup_set_self (d : List (String × JsonVal)) (k : String)
    (v : JsonVal) : dictLookup (dictSet d k v) k = some v := by
  unfold dictSet
  split_ifs with h
  · exact dictLookup_map_set k v d h
  · have hnone : d.find? (fun kv => kv.1 = k) = none := by
      rw [List.find?_eq_none]
      intro kv hkv
      simp only [Bool.not_eq_true, decide_eq_false_iff_not]
      intro hkk
      exact h (List.any_eq_true.mpr ⟨kv, hkv, by simp [hkk]⟩)
    unfold dictLookup
    rw [List.find?_append, hnone]
    simp [List.find?]

/-- After `d[k] = v`, every other key's lookup is unchanged. -/
theorem dictLookup_set_ne (d : List (String × JsonVal)) (k : String)
    (v : JsonVal) (key : String) (hne : key ≠ k) :
    dictLookup (dictSet d k v) key = dictLookup d key := by
  unfold dictSet
  split_ifs with h
  · clear h
    induction d with
    | nil => rfl
    | cons a as ih =>
      by_cases hk : a.1 = k
      · rw [List.map_cons, if_pos hk]
        unfold dictLookup
        rw [List.find?_cons_of_neg _ (by simp [Ne.symm hne]),
          List.find?_cons_of_neg _ (by simp [hk, Ne.symm hne])]
        exact ih
      · rw [List.map_cons, if_neg hk]
        unfold dictLookup
        cases hpa : (decide (a.1 = key)) with
        | true =>
          simp only [List.find?_cons, hpa]
        | false =>
          simp only [List.find?_cons, hpa]
          exact ih
  · unfold dictLookup
    rw [List.find?_append]
    have hlast : ([(k, v)].find? fun kv => kv.1 = key) = none := by
      simp [List.find?, Ne.symm hne]
    cases hfind : d.find? (fun kv => kv.1 = key) with
    | none => simp [hfind, hlast]
    | some found => simp [hfind]

/-- **C10.**  `api_call` with a non-`None` `data` dict inserts
`"SKILL_VER" ↦ __version__` into the caller's dictionary (in place) before
serialising, so the dict that is serialised into the request body is the
caller's dict with `SKILL_VER` set and every other key unchanged, and a body
is always sent (the `if data` truthiness test runs after the insertion, so
the dict is non-empty).  With `data = None` no body and no `SKILL_VER` field
are sent. -/
theorem api_call_skill_ver_injection :
    (∀ d : List (String × JsonVal),
        api_call_prepare (some d) =
          (some (dictSet d "SKILL_VER" (.str skillVersion)),
            some (dictSet d "SKILL_VER" (.str skillVersion))) ∧
        dictLookup (dictSet d "SKILL_VER" (.str skillVersion)) "SKILL_VER" =
          some (.str skillVersion) ∧
        (∀ key, key ≠ "SKILL_VER" →
          dictLookup (dictSet d "SKILL_VER" (.str skillVersion)) key =
            dictLookup d key)) ∧
    api_call_prepare none = (none, none) := by
  refine ⟨fun d => ⟨?_, dictLookup_set_self d _ _,
    fun key hkey => dictLookup_set_ne d _ _ key hkey⟩, rfl⟩
  simp [api_call_prepare, dictSet_isEmpty_false]

theorem api_call_skill_ver_injection_witness :
    api_call_prepare (some [("url", JsonVal.str "https://botsee.io")]) =
      (some [("url", JsonVal.str "https://botsee.io"),
          ("SKILL_VER", JsonVal.str "2.0.0")],
        some [("url", JsonVal.str "https://botsee.io"),
          ("SKILL_VER", JsonVal.str "2.0.0")]) ∧
    dictLookup [("url", JsonVal.str "https://botsee.io"),
        ("SKILL_VER", JsonVal.str "2.0.0")] "SKILL_VER" =
      some (JsonVal.str "2.0.0") ∧
    dictLookup [("url", JsonVal.str "https://botsee.io"),
        ("SKILL_VER", JsonVal.str "2.0.0")] "url" =
      dictLookup [("url", JsonVal.str "https://botsee.io")] "url" ∧
    api_call_prepare none = (none, none) := by
  obtain ⟨h1, h2, h3⟩ :=
    api_call_skill_ver_injection.1 [("url", JsonVal.str "https://botsee.io")]
  have hd : dictSet [("url", JsonVal.str "https://botsee.io")] "SKILL_VER"
      (.str skillVersion) =
      [("url", JsonVal.str "https://botsee.io"), ("SKILL_VER", JsonVal.str "2.0.0")] :=
    rfl
  refine ⟨?_, ?_, ?_, api_call_skill_ver_injection.2⟩
  · rw [h1, hd]
  · rw [← hd]
    exact h2
  · rw [← hd]
    exact h3 "url" (by decide)
